import Mathlib

/-!
Verification development for the SpoolmanSync repository.

Shallow embedding of:
 - `src/app/src/lib/entity-patterns.ts` (locale detection, print-status
   classification, printer-prefix extraction), with entity identifiers
   modelled as `List Char`;
 - `src/app/src/app/api/webhook/route.ts` (the `POST` webhook handler),
   modelled as a pure function from an environment (parsed body, Spoolman
   connection row, inventory snapshot, fallibility flags of the external
   calls) to the list of external calls performed plus the JSON response.
-/

namespace SpoolmanSync

/-! ## Embedding of `entity-patterns.ts` -/

/-- `PRINT_STATUS_SUFFIXES` from entity-patterns.ts: localized suffixes of the
print_status sensor, in source order (en, de, nl, es, it). -/
def PRINT_STATUS_SUFFIXES : List (List Char) :=
  ["print_status".toList, "druckstatus".toList, "printstatus".toList,
   "estado_de_la_impresion".toList, "stato_di_stampa".toList]

/-- The supported language codes (`SupportedLanguage` union type). -/
inductive SupportedLanguage where
  | en | de | nl | es | it
deriving DecidableEq, Repr

/-- `PRINT_STATUS_TO_LANGUAGE` from entity-patterns.ts, as an association list
in the object's insertion order (the order `Object.entries` iterates). -/
def PRINT_STATUS_TO_LANGUAGE : List (List Char × SupportedLanguage) :=
  [("print_status".toList, .en), ("druckstatus".toList, .de),
   ("printstatus".toList, .nl), ("estado_de_la_impresion".toList, .es),
   ("stato_di_stampa".toList, .it)]

/-- The test `entityId.endsWith('_' + suffix) || entityId.match(_suffix_\d+$)`
used by both `isPrintStatusEntity` and `detectLanguageFromEntity`.
The regex `_suffix_\d+$` holds iff the identifier ends with `_suffix_` followed
by one or more digits; since every suffix ends in a letter, the trailing digit
run of such an identifier is exactly the `\d+` group, so we test: the trailing
digit run (of the reversed identifier) is nonempty and, after removing it, the
rest ends with `_suffix_` (prefix of the reversal). -/
def matchesSuffix (entityId suffix : List Char) : Bool :=
  ('_' :: suffix).isSuffixOf entityId ||
  ((entityId.reverse.takeWhile Char.isDigit) ≠ [] &&
    ((('_' :: suffix) ++ ['_']).reverse.isPrefixOf
      (entityId.reverse.dropWhile Char.isDigit)))

/-- `detectLanguageFromEntity` from entity-patterns.ts: scan the
`PRINT_STATUS_TO_LANGUAGE` entries in order and return the first language whose
suffix matches; default to `'en'`. -/
def detectLanguageFromEntity (entityId : List Char) : SupportedLanguage :=
  match PRINT_STATUS_TO_LANGUAGE.find? (fun pr => matchesSuffix entityId pr.1) with
  | some pr => pr.2
  | none => .en

/-- The literal `"sensor."` (7 characters). -/
def sensorDot : List Char := "sensor.".toList

/-- `isPrintStatusEntity` from entity-patterns.ts:
`entityId.startsWith('sensor.')` and some suffix matches. -/
def isPrintStatusEntity (entityId : List Char) : Bool :=
  sensorDot.isPrefixOf entityId &&
  PRINT_STATUS_SUFFIXES.any (fun suf => matchesSuffix entityId suf)

/-- Whether a tail `t` matches `_suffix(?:_\d+)?` up to the end of the string
for one given suffix: either `t` is exactly `_suffix`, or `t` is `_suffix_`
followed by one or more digits. -/
def tailCheck (t suf : List Char) : Bool :=
  (t == '_' :: suf) ||
  (((('_' :: suf) ++ ['_']).isPrefixOf t) &&
    ((t.drop (suf.length + 2)) ≠ [] &&
      (t.drop (suf.length + 2)).all Char.isDigit))

/-- Whether a tail `t` (the part of the identifier after the lazy capture of
`^sensor\.(.+?)_(?:SUFFIXES)(?:_\d+)?$`) matches `_(?:SUFFIXES)(?:_\d+)?` up to
the end of the string. -/
def tailMatches (t : List Char) : Bool :=
  PRINT_STATUS_SUFFIXES.any fun suf => tailCheck t suf

/-- The lazy capture group `(.+?)` of `buildPrintStatusPattern`: scanning left
to right, return the shortest nonempty capture whose remaining tail matches
`_(?:SUFFIXES)(?:_\d+)?$`; `none` when the regex does not match. -/
def lazySplit (acc rest : List Char) : Option (List Char) :=
  match rest with
  | [] => none
  | c :: t => if tailMatches t then some (acc ++ [c]) else lazySplit (acc ++ [c]) t

/-- `entityId.match(buildPrintStatusPattern())`: the capture of
`^sensor\.(.+?)_(?:SUFFIXES)(?:_\d+)?$`, when the pattern matches. -/
def printStatusMatch (entityId : List Char) : Option (List Char) :=
  if sensorDot.isPrefixOf entityId then lazySplit [] (entityId.drop 7) else none

/-- One step of the fallback loop of `extractPrinterPrefix`:
`result.replace(new RegExp('_' + suffix + '(?:_\d+)?$'), '')`. The anchored
pattern strips a trailing `_suffix_digits` (greedy digits) or else a trailing
`_suffix`; otherwise the string is unchanged. -/
def stripSuffixNum (r suf : List Char) : List Char :=
  let ds := r.reverse.takeWhile Char.isDigit
  if ds ≠ [] && ((('_' :: suf) ++ ['_']).isSuffixOf (r.take (r.length - ds.length)))
  then r.take (r.length - ds.length - (suf.length + 2))
  else if ('_' :: suf).isSuffixOf r then r.take (r.length - (suf.length + 1))
  else r

/-- `extractPrinterPrefix` from entity-patterns.ts: the regex capture when the
print-status pattern matches; otherwise strip a leading `sensor.` and then each
`_suffix(?:_\d+)?$` in turn. -/
def extractPrinterPrefix (entityId : List Char) : List Char :=
  match printStatusMatch entityId with
  | some pre => pre
  | none =>
      let result := if sensorDot.isPrefixOf entityId then entityId.drop 7 else entityId
      PRINT_STATUS_SUFFIXES.foldl stripSuffixNum result

/-! ## Embedding of `route.ts` (the `POST` webhook handler)

JavaScript numbers of the payload (`used_weight`, `remaining_weight`) are
modelled as rationals. Activity-log rows carry a `type`, `message` and
`details`; the claims only refer to the `type` field and to how many rows are
appended, so the model records the `type` of each `activityLog.create` call.
`console.log`/`console.warn` calls are not modelled. The Prisma and event
calls themselves are modelled as infallible; the fallible steps named by the
spec (body parsing, the inventory read `getSpools`, the inventory mutations
`useWeight`/`assignSpoolToTray`) get explicit success flags in the
environment, and a throwing step transfers control to the `catch` block. -/

/-- A Spoolman spool as read by the handler: `id`, `filament.name`,
`remaining_weight`, and the `extra` string-to-string map (an absent `extra`
is modelled as the empty map). -/
structure Spool where
  id : Nat
  filamentName : String
  remaining_weight : Rat
  extra : List (String × String)
deriving DecidableEq, Repr

/-- `s.extra?.[key]`: the value stored under `key`, if any. -/
def Spool.extraGet (s : Spool) (key : String) : Option String :=
  (s.extra.find? (fun kv => kv.1 == key)).map (fun kv => kv.2)

/-- `JSON.stringify` applied to a string: wrap in double quotes, escaping
backslash and double quote (control-character escapes are not modelled; the
claims only use this encoding on both sides of equality comparisons). -/
def jsonEncodeString (s : String) : String :=
  "\"" ++ String.mk ((s.data.map fun c =>
    if c = '"' ∨ c = '\\' then ['\\', c] else [c]).flatten) ++ "\""

/-- The parsed JSON body of a webhook delivery; absent fields are `none`. -/
structure WebhookBody where
  event : Option String
  used_weight : Option Rat
  active_tray_id : Option String
  tray_entity_id : Option String
  tag_uid : Option String
deriving DecidableEq, Repr

/-- The `SpoolUpdateEvent` payload emitted on `spoolEvents` for the dashboard. -/
structure SpoolUpdateEvent where
  type : String
  spoolId : Nat
  spoolName : String
  deducted : Rat
  newWeight : Rat
  trayId : String
  timestamp : Nat
deriving DecidableEq, Repr

/-- One external call performed by the handler, in execution order. -/
inductive Call where
  /-- `prisma.activityLog.create` with the given `type` field. -/
  | logActivity (type : String)
  /-- `prisma.spoolmanConnection.findFirst()`. -/
  | findSpoolmanConnection
  /-- `client.getSpools()`. -/
  | getSpools
  /-- `client.useWeight(spoolId, grams)`. -/
  | useWeight (spoolId : Nat) (grams : Rat)
  /-- `client.assignSpoolToTray(spoolId, trayEntityId)`; the tray argument is
  `body.tray_entity_id`, which may be absent. -/
  | assignSpoolToTray (spoolId : Nat) (tray : Option String)
  /-- `spoolEvents.emit(SPOOL_UPDATED, ev)`. -/
  | emitSpoolUpdated (ev : SpoolUpdateEvent)
deriving DecidableEq, Repr

/-- The JSON body (plus HTTP status) of the `NextResponse` returned. -/
structure WebhookResponse where
  httpStatus : Nat := 200
  status : Option String := none
  reason : Option String := none
  message : Option String := none
  spoolId : Option Nat := none
  deducted : Option Rat := none
  newRemainingWeight : Option Rat := none
  spool : Option Spool := none
  matchedBy : Option String := none
  error : Option String := none
deriving DecidableEq, Repr

/-- The environment of one webhook delivery: the parse result of the request
body (`none` models `request.json()` throwing), the `spoolmanConnection` row,
the inventory snapshot `getSpools` would return, success flags for the
fallible external calls, and the `Date.now()` clock value. -/
structure Env where
  parsedBody : Option WebhookBody
  spoolmanUrl : Option String
  spools : List Spool
  getSpoolsOk : Bool
  useWeightOk : Bool
  assignOk : Bool
  now : Nat

/-- Response of the `catch` block: HTTP 500 with a generic error body. -/
def errorResponse : WebhookResponse :=
  { httpStatus := 500, error := some "Webhook processing failed" }

/-- An `{ status: 'ignored', reason }` response. -/
def ignoredResponse (r : String) : WebhookResponse :=
  { status := some "ignored", reason := some r }

/-- JavaScript string interpolation of a possibly-undefined value. -/
def optStr : Option String → String
  | none => "undefined"
  | some s => s

/-- The spool predicate of the `spool_usage` branch:
`s.extra?.['active_tray'] === JSON.stringify(active_tray_id)`. -/
def usageMatch (tray : String) (s : Spool) : Bool :=
  s.extraGet "active_tray" == some (jsonEncodeString tray)

/-- The spool predicate of the `tray_change` branch:
`s.extra?.['tag_uid'] === JSON.stringify(tag_uid)`. -/
def tagMatch (tag : String) (s : Spool) : Bool :=
  s.extraGet "tag_uid" == some (jsonEncodeString tag)

/-- The `spool_usage` branch of the handler (route.ts lines 47–108), given the
trace accumulated so far. -/
def handleSpoolUsage (env : Env) (body : WebhookBody) (t1 : List Call) :
    List Call × WebhookResponse :=
  match body.used_weight with
  | none => (t1, ignoredResponse "no weight to deduct")
  | some w =>
    if w ≤ 0 then (t1, ignoredResponse "no weight to deduct")
    else
      match body.active_tray_id with
      | none => (t1, ignoredResponse "no active_tray_id provided")
      | some tray =>
        if tray = "" then (t1, ignoredResponse "no active_tray_id provided")
        else
          let t2 := t1 ++ [Call.getSpools]
          if env.getSpoolsOk = false then
            (t2 ++ [Call.logActivity "error"], errorResponse)
          else
            match env.spools.find? (usageMatch tray) with
            | none =>
              (t2, { status := some "no_match",
                     message := some ("No spool assigned to tray " ++ tray ++
                       ". Assign a spool in SpoolmanSync first.") })
            | some sp =>
              let t3 := t2 ++ [Call.useWeight sp.id w]
              if env.useWeightOk = false then
                (t3 ++ [Call.logActivity "error"], errorResponse)
              else
                let ev : SpoolUpdateEvent :=
                  { type := "usage", spoolId := sp.id, spoolName := sp.filamentName,
                    deducted := w, newWeight := sp.remaining_weight - w,
                    trayId := tray, timestamp := env.now }
                (t3 ++ [Call.emitSpoolUpdated ev, Call.logActivity "spool_usage"],
                 { status := some "success", spoolId := some sp.id,
                   deducted := some w,
                   newRemainingWeight := some (sp.remaining_weight - w) })

/-- The `tray_change` branch of the handler (route.ts lines 111–146). Note the
inventory read happens before the tag check. -/
def handleTrayChange (env : Env) (body : WebhookBody) (t1 : List Call) :
    List Call × WebhookResponse :=
  let t2 := t1 ++ [Call.getSpools]
  if env.getSpoolsOk = false then
    (t2 ++ [Call.logActivity "error"], errorResponse)
  else
    let noMatch : List Call × WebhookResponse :=
      (t2, { status := some "no_match",
             message := some ("No spool assigned to this tray. " ++
               "Please assign a spool manually in SpoolmanSync.") })
    match body.tag_uid with
    | none => noMatch
    | some tag =>
      if tag = "" ∨ tag = "unknown" then noMatch
      else
        match env.spools.find? (tagMatch tag) with
        | none => noMatch
        | some sp =>
          let t3 := t2 ++ [Call.assignSpoolToTray sp.id body.tray_entity_id]
          if env.assignOk = false then
            (t3 ++ [Call.logActivity "error"], errorResponse)
          else
            (t3 ++ [Call.logActivity "spool_change"],
             { status := some "success", spool := some sp,
               matchedBy := some "tag_uid" })

/-- The `POST` handler of route.ts: returns the list of external calls it
performed, in order, and the response. -/
def POST (env : Env) : List Call × WebhookResponse :=
  match env.parsedBody with
  | none => ([Call.logActivity "error"], errorResponse)
  | some body =>
    let t1 := [Call.logActivity "webhook", Call.findSpoolmanConnection]
    match env.spoolmanUrl with
    | none => (t1, ignoredResponse "spoolman not configured")
    | some _ =>
      if body.event == some "spool_usage" then handleSpoolUsage env body t1
      else if body.event == some "tray_change" then handleTrayChange env body t1
      else (t1, ignoredResponse "unknown event type")

/-- Whether a call mutates the inventory service
(`useWeight` / `assignSpoolToTray`; `clearAssignment` is not reachable from
this handler). -/
def isMutationCall : Call → Bool
  | .useWeight _ _ => true
  | .assignSpoolToTray _ _ => true
  | _ => false

/-- The inventory mutation calls of a trace, in order. -/
def mutationCalls (t : List Call) : List Call := t.filter isMutationCall

/-- Whether a call appends an ActivityRecord. -/
def isLogCall : Call → Bool
  | .logActivity _ => true
  | _ => false

/-- How many ActivityRecords a trace appends. -/
def activityCount (t : List Call) : Nat := (t.filter isLogCall).length

/-- The dashboard events broadcast by a trace, in order. -/
def emittedEvents (t : List Call) : List SpoolUpdateEvent :=
  t.filterMap fun c => match c with
    | .emitSpoolUpdated ev => some ev
    | _ => none

/-! ### Concrete fixtures for witnesses and counterexamples -/

/-- A spool claiming tray `tray1` and carrying tag `AB`, with 800 g left. -/
def spoolA : Spool :=
  ⟨1, "PLA Black", 800, [("active_tray", "\"tray1\""), ("tag_uid", "\"AB\"")]⟩

/-- A second spool carrying the same tag `AB`, with 500 g left. -/
def spoolB : Spool := ⟨2, "PLA Red", 500, [("tag_uid", "\"AB\"")]⟩

/-- A `spool_usage` body: 50 g used from tray `tray1`. -/
def bodyUsage : WebhookBody := ⟨some "spool_usage", some 50, some "tray1", none, none⟩

/-- A `spool_usage` body with zero used weight. -/
def bodyZero : WebhookBody := ⟨some "spool_usage", some 0, some "tray1", none, none⟩

/-- A `tray_change` body with tag `AB` for tray `sensor.t1`. -/
def bodyTray : WebhookBody := ⟨some "tray_change", none, none, some "sensor.t1", some "AB"⟩

/-- A body with an unrecognized event name. -/
def bodyOther : WebhookBody := ⟨some "print_started", none, none, none, none⟩

/-- Environment for a successful usage deduction against `spoolA`. -/
def envUsage : Env := ⟨some bodyUsage, some "http://spoolman", [spoolA], true, true, true, 7⟩

/-- Environment for a usage event whose tray has no claiming spool. -/
def envUsageNoMatch : Env :=
  ⟨some bodyUsage, some "http://spoolman", [spoolB], true, true, true, 7⟩

/-- Environment for a zero-weight usage event. -/
def envZero : Env := ⟨some bodyZero, some "http://spoolman", [spoolA], true, true, true, 7⟩

/-- Environment for a tray change whose tag matches only `spoolA`. -/
def envTrayOne : Env := ⟨some bodyTray, some "http://spoolman", [spoolA], true, true, true, 7⟩

/-- Environment for a tray change whose tag matches both spools. -/
def envTrayTwo : Env :=
  ⟨some bodyTray, some "http://spoolman", [spoolA, spoolB], true, true, true, 7⟩

/-- Environment with no Spoolman connection configured. -/
def envNoConn : Env := ⟨some bodyTray, none, [spoolA], true, true, true, 7⟩

/-- Environment with no connection and an unrecognized event. -/
def envNoConnOther : Env := ⟨some bodyOther, none, [spoolA], true, true, true, 7⟩

/-- Environment with a connection and an unrecognized event. -/
def envOther : Env := ⟨some bodyOther, some "http://spoolman", [spoolA], true, true, true, 7⟩

/-- Environment whose request body fails to parse. -/
def envParseFail : Env := ⟨none, some "http://spoolman", [spoolA], true, true, true, 7⟩

/-- Environment where the inventory read throws. -/
def envReadFail : Env :=
  ⟨some bodyUsage, some "http://spoolman", [spoolA], false, true, true, 7⟩

/-! ## General list lemmas -/

/-- Bridge between the boolean `isPrefixOf` and the `<+:` relation. -/
lemma isPrefixOf_iff {α} [DecidableEq α] {l₁ l₂ : List α} :
    l₁.isPrefixOf l₂ = true ↔ l₁ <+: l₂ :=
  List.isPrefixOf_iff_prefix

/-- Two prefixes of the same list are comparable. -/
lemma prefix_total {α} (l₁ l₂ l₃ : List α) (h₁ : l₁ <+: l₃) (h₂ : l₂ <+: l₃) :
    l₁ <+: l₂ ∨ l₂ <+: l₁ := by
  rcases Nat.le_total l₁.length l₂.length with hl | hl
  · left
    rw [List.prefix_iff_eq_take] at h₁ h₂ ⊢
    rw [h₂, List.take_take, Nat.min_eq_left hl]
    exact h₁
  · right
    rw [List.prefix_iff_eq_take] at h₁ h₂ ⊢
    rw [h₁, List.take_take, Nat.min_eq_left hl]
    exact h₂

/-- When two concrete lists are mutually non-comparable as prefixes, neither is
a prefix of the other extended by anything. -/
lemma isPrefixOf_append_cross {a b : List Char} (t : List Char)
    (hab : a.isPrefixOf b = false) (hba : b.isPrefixOf a = false) :
    a.isPrefixOf (b ++ t) = false := by
  cases h : a.isPrefixOf (b ++ t) with
  | false => rfl
  | true =>
    rcases prefix_total a b (b ++ t) (isPrefixOf_iff.mp h)
        (List.prefix_append b t) with h' | h'
    · rw [isPrefixOf_iff.mpr h'] at hab; cases hab
    · rw [isPrefixOf_iff.mpr h'] at hba; cases hba

/-- A prefix starting with `c` forces the list to start with `c`. -/
lemma head_eq_of_IsPrefix_cons {c c' : Char} {a l : List Char}
    (h : (c :: a) <+: (c' :: l)) : c = c' := by
  obtain ⟨t, ht⟩ := h
  injection ht

/-- `takeWhile` walks through a block that satisfies the predicate. -/
lemma takeWhile_append_all {α} (p : α → Bool) (d m : List α)
    (h : ∀ c ∈ d, p c = true) :
    (d ++ m).takeWhile p = d ++ m.takeWhile p := by
  induction d with
  | nil => simp
  | cons c t ih =>
    have hc := h c (List.mem_cons_self c t)
    have ht := ih (fun x hx => h x (List.mem_cons_of_mem c hx))
    simp [List.takeWhile_cons, hc, ht]

/-- `dropWhile` drops a block that satisfies the predicate. -/
lemma dropWhile_append_all {α} (p : α → Bool) (d m : List α)
    (h : ∀ c ∈ d, p c = true) :
    (d ++ m).dropWhile p = m.dropWhile p := by
  induction d with
  | nil => simp
  | cons c t ih =>
    have hc := h c (List.mem_cons_self c t)
    have ht := ih (fun x hx => h x (List.mem_cons_of_mem c hx))
    simp [List.dropWhile_cons, hc, ht]

/-- `find?` returns the head of the filtered list. -/
lemma find?_eq_head_filter {α} (p : α → Bool) (l : List α) :
    l.find? p = (l.filter p).head? := by
  induction l with
  | nil => rfl
  | cons a t ih =>
    cases h : p a with
    | false =>
      rw [List.find?_cons_of_neg _ (by simp [h]), List.filter_cons_of_neg (by simp [h]), ih]
    | true =>
      rw [List.find?_cons_of_pos _ h, List.filter_cons_of_pos h, List.head?_cons]

/-! ## Lemmas about `matchesSuffix` -/

/-- An identifier ending in `_suffix` matches that suffix (its `endsWith`
branch fires). -/
lemma matchesSuffix_self (p suf : List Char) :
    matchesSuffix (p ++ '_' :: suf) suf = true := by
  have h : ('_' :: suf).isSuffixOf (p ++ '_' :: suf) = true := by
    simp only [List.isSuffixOf, List.reverse_append]
    exact isPrefixOf_iff.mpr
      (List.prefix_append ('_' :: suf).reverse p.reverse)
  simp [matchesSuffix, h]

/-- An identifier ending in `_suffix_` plus a nonempty digit run matches that
suffix (its regex branch fires). -/
lemma matchesSuffix_numeric_self (p d suf : List Char) (hd : d ≠ [])
    (hdig : ∀ c ∈ d, c.isDigit = true) :
    matchesSuffix (p ++ ('_' :: suf) ++ ['_'] ++ d) suf = true := by
  have hrev : (p ++ ('_' :: suf) ++ ['_'] ++ d).reverse =
      d.reverse ++ ((('_' :: suf) ++ ['_']).reverse ++ p.reverse) := by
    simp [List.reverse_append, List.append_assoc]
  have hdig' : ∀ c ∈ d.reverse, Char.isDigit c = true := by
    intro c hc; exact hdig c (List.mem_reverse.mp hc)
  have htake : (p ++ ('_' :: suf) ++ ['_'] ++ d).reverse.takeWhile Char.isDigit
      = d.reverse := by
    rw [hrev, takeWhile_append_all _ _ _ hdig']
    have : ((('_' :: suf) ++ ['_']).reverse ++ p.reverse).takeWhile Char.isDigit = [] := by
      simp [List.reverse_append, List.takeWhile_cons]
    rw [this, List.append_nil]
  have hdrop : (p ++ ('_' :: suf) ++ ['_'] ++ d).reverse.dropWhile Char.isDigit
      = (('_' :: suf) ++ ['_']).reverse ++ p.reverse := by
    rw [hrev, dropWhile_append_all _ _ _ hdig']
    simp [List.reverse_append, List.dropWhile_cons]
  have hne : d.reverse ≠ [] := by simpa [List.reverse_eq_nil_iff] using hd
  have hpre : (('_' :: suf) ++ ['_']).reverse.isPrefixOf
      ((('_' :: suf) ++ ['_']).reverse ++ p.reverse) = true :=
    isPrefixOf_iff.mpr (List.prefix_append _ _)
  unfold matchesSuffix
  rw [htake, hdrop, hpre, decide_eq_true hne]
  simp

/-- An identifier ending in `_tgt` does not match a different suffix `suf`,
when the two dressed suffixes are prefix-incomparable (after reversal) and
`_tgt` ends in a non-digit. -/
lemma matchesSuffix_plain_ne (p suf tgt : List Char)
    (hab : ('_' :: suf).reverse.isPrefixOf ('_' :: tgt).reverse = false)
    (hba : ('_' :: tgt).reverse.isPrefixOf ('_' :: suf).reverse = false)
    (hc : ('_' :: tgt).reverse.takeWhile Char.isDigit = []) :
    matchesSuffix (p ++ '_' :: tgt) suf = false := by
  obtain ⟨c, ts, hcons⟩ : ∃ c ts, ('_' :: tgt).reverse = c :: ts := by
    cases h : ('_' :: tgt).reverse with
    | nil => exact absurd (List.reverse_eq_nil_iff.mp h) (by simp)
    | cons c ts => exact ⟨c, ts, rfl⟩
  have hcd : Char.isDigit c = false := by
    rw [hcons, List.takeWhile_cons] at hc
    by_contra h
    rw [Bool.not_eq_false] at h
    simp [h] at hc
  have h1 : ('_' :: suf).isSuffixOf (p ++ '_' :: tgt) = false := by
    simp only [List.isSuffixOf, List.reverse_append]
    exact isPrefixOf_append_cross p.reverse hab hba
  have h2 : (p ++ '_' :: tgt).reverse.takeWhile Char.isDigit = [] := by
    rw [List.reverse_append, hcons, List.cons_append, List.takeWhile_cons, hcd]
    simp
  unfold matchesSuffix
  rw [h1, h2]
  simp

/-- An identifier ending in `_tgt_` plus digits does not match a different
suffix `suf`, when the reversed dressed patterns are prefix-incomparable and
`_suf` ends in a non-digit. -/
lemma matchesSuffix_numeric_ne (p d suf tgt : List Char) (hd : d ≠ [])
    (hdig : ∀ c ∈ d, c.isDigit = true)
    (hsuf : ('_' :: suf).reverse.takeWhile Char.isDigit = [])
    (hab : (('_' :: suf) ++ ['_']).reverse.isPrefixOf
      ((('_' :: tgt) ++ ['_']).reverse) = false)
    (hba : (('_' :: tgt) ++ ['_']).reverse.isPrefixOf
      ((('_' :: suf) ++ ['_']).reverse) = false) :
    matchesSuffix (p ++ ('_' :: tgt) ++ ['_'] ++ d) suf = false := by
  have hrev : (p ++ ('_' :: tgt) ++ ['_'] ++ d).reverse =
      d.reverse ++ ((('_' :: tgt) ++ ['_']).reverse ++ p.reverse) := by
    simp [List.reverse_append, List.append_assoc]
  have hdig' : ∀ c ∈ d.reverse, Char.isDigit c = true := by
    intro c hc; exact hdig c (List.mem_reverse.mp hc)
  obtain ⟨c₀, t₀, hd0⟩ : ∃ c₀ t₀, d.reverse = c₀ :: t₀ := by
    cases h : d.reverse with
    | nil => exact absurd (List.reverse_eq_nil_iff.mp h) hd
    | cons c₀ t₀ => exact ⟨c₀, t₀, rfl⟩
  have hc₀ : Char.isDigit c₀ = true := hdig' c₀ (by rw [hd0]; simp)
  obtain ⟨c₁, t₁, hs1⟩ : ∃ c₁ t₁, ('_' :: suf).reverse = c₁ :: t₁ := by
    cases h : ('_' :: suf).reverse with
    | nil => exact absurd (List.reverse_eq_nil_iff.mp h) (by simp)
    | cons c₁ t₁ => exact ⟨c₁, t₁, rfl⟩
  have hc₁ : Char.isDigit c₁ = false := by
    rw [hs1, List.takeWhile_cons] at hsuf
    by_contra h
    rw [Bool.not_eq_false] at h
    simp [h] at hsuf
  have h1 : ('_' :: suf).isSuffixOf (p ++ ('_' :: tgt) ++ ['_'] ++ d) = false := by
    simp only [List.isSuffixOf]
    rw [hrev, hd0, hs1, List.cons_append]
    cases h : List.isPrefixOf (c₁ :: t₁)
        (c₀ :: (t₀ ++ ((('_' :: tgt) ++ ['_']).reverse ++ p.reverse))) with
    | false => rfl
    | true =>
      have := head_eq_of_IsPrefix_cons (isPrefixOf_iff.mp h)
      rw [this, hc₀] at hc₁
      cases hc₁
  have hdrop : (p ++ ('_' :: tgt) ++ ['_'] ++ d).reverse.dropWhile Char.isDigit
      = (('_' :: tgt) ++ ['_']).reverse ++ p.reverse := by
    rw [hrev, dropWhile_append_all _ _ _ hdig']
    simp [List.reverse_append, List.dropWhile_cons]
  have h2 : (('_' :: suf) ++ ['_']).reverse.isPrefixOf
      ((p ++ ('_' :: tgt) ++ ['_'] ++ d).reverse.dropWhile Char.isDigit) = false := by
    rw [hdrop]
    exact isPrefixOf_append_cross p.reverse hab hba
  unfold matchesSuffix
  rw [h1, h2]
  simp

/-! ## Locale detection, per locale -/

lemma detect_plain_en (p : List Char) :
    detectLanguageFromEntity (p ++ '_' :: "print_status".toList) = .en := by
  have h1 := matchesSuffix_self p "print_status".toList
  unfold detectLanguageFromEntity PRINT_STATUS_TO_LANGUAGE
  rw [List.find?_cons_of_pos _ (by simpa using h1)]

lemma detect_num_en (p d : List Char) (hd : d ≠ []) (hdig : ∀ c ∈ d, c.isDigit = true) :
    detectLanguageFromEntity (p ++ ('_' :: "print_status".toList) ++ ['_'] ++ d) = .en := by
  have h1 := matchesSuffix_numeric_self p d "print_status".toList hd hdig
  unfold detectLanguageFromEntity PRINT_STATUS_TO_LANGUAGE
  rw [List.find?_cons_of_pos _ (by simpa using h1)]

lemma detect_plain_de (p : List Char) :
    detectLanguageFromEntity (p ++ '_' :: "druckstatus".toList) = .de := by
  have h1 : matchesSuffix (p ++ '_' :: "druckstatus".toList) "print_status".toList = false :=
    matchesSuffix_plain_ne p _ _ (by decide) (by decide) (by decide)
  have h2 := matchesSuffix_self p "druckstatus".toList
  unfold detectLanguageFromEntity PRINT_STATUS_TO_LANGUAGE
  rw [List.find?_cons_of_neg _ (by intro hcon; simp only [h1] at hcon; exact Bool.false_ne_true hcon), List.find?_cons_of_pos _ (by simpa using h2)]

lemma detect_num_de (p d : List Char) (hd : d ≠ []) (hdig : ∀ c ∈ d, c.isDigit = true) :
    detectLanguageFromEntity (p ++ ('_' :: "druckstatus".toList) ++ ['_'] ++ d) = .de := by
  have h1 : matchesSuffix (p ++ ('_' :: "druckstatus".toList) ++ ['_'] ++ d)
      "print_status".toList = false :=
    matchesSuffix_numeric_ne p d _ _ hd hdig (by decide) (by decide) (by decide)
  have h2 := matchesSuffix_numeric_self p d "druckstatus".toList hd hdig
  unfold detectLanguageFromEntity PRINT_STATUS_TO_LANGUAGE
  rw [List.find?_cons_of_neg _ (by intro hcon; simp only [h1] at hcon; exact Bool.false_ne_true hcon), List.find?_cons_of_pos _ (by simpa using h2)]

lemma detect_plain_nl (p : List Char) :
    detectLanguageFromEntity (p ++ '_' :: "printstatus".toList) = .nl := by
  have h1 : matchesSuffix (p ++ '_' :: "printstatus".toList) "print_status".toList = false :=
    matchesSuffix_plain_ne p _ _ (by decide) (by decide) (by decide)
  have h2 : matchesSuffix (p ++ '_' :: "printstatus".toList) "druckstatus".toList = false :=
    matchesSuffix_plain_ne p _ _ (by decide) (by decide) (by decide)
  have h3 := matchesSuffix_self p "printstatus".toList
  unfold detectLanguageFromEntity PRINT_STATUS_TO_LANGUAGE
  rw [List.find?_cons_of_neg _ (by intro hcon; simp only [h1] at hcon; exact Bool.false_ne_true hcon), List.find?_cons_of_neg _ (by intro hcon; simp only [h2] at hcon; exact Bool.false_ne_true hcon),
    List.find?_cons_of_pos _ (by simpa using h3)]

lemma detect_num_nl (p d : List Char) (hd : d ≠ []) (hdig : ∀ c ∈ d, c.isDigit = true) :
    detectLanguageFromEntity (p ++ ('_' :: "printstatus".toList) ++ ['_'] ++ d) = .nl := by
  have h1 : matchesSuffix (p ++ ('_' :: "printstatus".toList) ++ ['_'] ++ d)
      "print_status".toList = false :=
    matchesSuffix_numeric_ne p d _ _ hd hdig (by decide) (by decide) (by decide)
  have h2 : matchesSuffix (p ++ ('_' :: "printstatus".toList) ++ ['_'] ++ d)
      "druckstatus".toList = false :=
    matchesSuffix_numeric_ne p d _ _ hd hdig (by decide) (by decide) (by decide)
  have h3 := matchesSuffix_numeric_self p d "printstatus".toList hd hdig
  unfold detectLanguageFromEntity PRINT_STATUS_TO_LANGUAGE
  rw [List.find?_cons_of_neg _ (by intro hcon; simp only [h1] at hcon; exact Bool.false_ne_true hcon), List.find?_cons_of_neg _ (by intro hcon; simp only [h2] at hcon; exact Bool.false_ne_true hcon),
    List.find?_cons_of_pos _ (by simpa using h3)]

lemma detect_plain_es (p : List Char) :
    detectLanguageFromEntity (p ++ '_' :: "estado_de_la_impresion".toList) = .es := by
  have h1 : matchesSuffix (p ++ '_' :: "estado_de_la_impresion".toList)
      "print_status".toList = false :=
    matchesSuffix_plain_ne p _ _ (by decide) (by decide) (by decide)
  have h2 : matchesSuffix (p ++ '_' :: "estado_de_la_impresion".toList)
      "druckstatus".toList = false :=
    matchesSuffix_plain_ne p _ _ (by decide) (by decide) (by decide)
  have h3 : matchesSuffix (p ++ '_' :: "estado_de_la_impresion".toList)
      "printstatus".toList = false :=
    matchesSuffix_plain_ne p _ _ (by decide) (by decide) (by decide)
  have h4 := matchesSuffix_self p "estado_de_la_impresion".toList
  unfold detectLanguageFromEntity PRINT_STATUS_TO_LANGUAGE
  rw [List.find?_cons_of_neg _ (by intro hcon; simp only [h1] at hcon; exact Bool.false_ne_true hcon), List.find?_cons_of_neg _ (by intro hcon; simp only [h2] at hcon; exact Bool.false_ne_true hcon),
    List.find?_cons_of_neg _ (by intro hcon; simp only [h3] at hcon; exact Bool.false_ne_true hcon), List.find?_cons_of_pos _ (by simpa using h4)]

lemma detect_num_es (p d : List Char) (hd : d ≠ []) (hdig : ∀ c ∈ d, c.isDigit = true) :
    detectLanguageFromEntity (p ++ ('_' :: "estado_de_la_impresion".toList) ++ ['_'] ++ d)
      = .es := by
  have h1 : matchesSuffix (p ++ ('_' :: "estado_de_la_impresion".toList) ++ ['_'] ++ d)
      "print_status".toList = false :=
    matchesSuffix_numeric_ne p d _ _ hd hdig (by decide) (by decide) (by decide)
  have h2 : matchesSuffix (p ++ ('_' :: "estado_de_la_impresion".toList) ++ ['_'] ++ d)
      "druckstatus".toList = false :=
    matchesSuffix_numeric_ne p d _ _ hd hdig (by decide) (by decide) (by decide)
  have h3 : matchesSuffix (p ++ ('_' :: "estado_de_la_impresion".toList) ++ ['_'] ++ d)
      "printstatus".toList = false :=
    matchesSuffix_numeric_ne p d _ _ hd hdig (by decide) (by decide) (by decide)
  have h4 := matchesSuffix_numeric_self p d "estado_de_la_impresion".toList hd hdig
  unfold detectLanguageFromEntity PRINT_STATUS_TO_LANGUAGE
  rw [List.find?_cons_of_neg _ (by intro hcon; simp only [h1] at hcon; exact Bool.false_ne_true hcon), List.find?_cons_of_neg _ (by intro hcon; simp only [h2] at hcon; exact Bool.false_ne_true hcon),
    List.find?_cons_of_neg _ (by intro hcon; simp only [h3] at hcon; exact Bool.false_ne_true hcon), List.find?_cons_of_pos _ (by simpa using h4)]

lemma detect_plain_it (p : List Char) :
    detectLanguageFromEntity (p ++ '_' :: "stato_di_stampa".toList) = .it := by
  have h1 : matchesSuffix (p ++ '_' :: "stato_di_stampa".toList)
      "print_status".toList = false :=
    matchesSuffix_plain_ne p _ _ (by decide) (by decide) (by decide)
  have h2 : matchesSuffix (p ++ '_' :: "stato_di_stampa".toList)
      "druckstatus".toList = false :=
    matchesSuffix_plain_ne p _ _ (by decide) (by decide) (by decide)
  have h3 : matchesSuffix (p ++ '_' :: "stato_di_stampa".toList)
      "printstatus".toList = false :=
    matchesSuffix_plain_ne p _ _ (by decide) (by decide) (by decide)
  have h4 : matchesSuffix (p ++ '_' :: "stato_di_stampa".toList)
      "estado_de_la_impresion".toList = false :=
    matchesSuffix_plain_ne p _ _ (by decide) (by decide) (by decide)
  have h5 := matchesSuffix_self p "stato_di_stampa".toList
  unfold detectLanguageFromEntity PRINT_STATUS_TO_LANGUAGE
  rw [List.find?_cons_of_neg _ (by intro hcon; simp only [h1] at hcon; exact Bool.false_ne_true hcon), List.find?_cons_of_neg _ (by intro hcon; simp only [h2] at hcon; exact Bool.false_ne_true hcon),
    List.find?_cons_of_neg _ (by intro hcon; simp only [h3] at hcon; exact Bool.false_ne_true hcon), List.find?_cons_of_neg _ (by intro hcon; simp only [h4] at hcon; exact Bool.false_ne_true hcon),
    List.find?_cons_of_pos _ (by simpa using h5)]

lemma detect_num_it (p d : List Char) (hd : d ≠ []) (hdig : ∀ c ∈ d, c.isDigit = true) :
    detectLanguageFromEntity (p ++ ('_' :: "stato_di_stampa".toList) ++ ['_'] ++ d)
      = .it := by
  have h1 : matchesSuffix (p ++ ('_' :: "stato_di_stampa".toList) ++ ['_'] ++ d)
      "print_status".toList = false :=
    matchesSuffix_numeric_ne p d _ _ hd hdig (by decide) (by decide) (by decide)
  have h2 : matchesSuffix (p ++ ('_' :: "stato_di_stampa".toList) ++ ['_'] ++ d)
      "druckstatus".toList = false :=
    matchesSuffix_numeric_ne p d _ _ hd hdig (by decide) (by decide) (by decide)
  have h3 : matchesSuffix (p ++ ('_' :: "stato_di_stampa".toList) ++ ['_'] ++ d)
      "printstatus".toList = false :=
    matchesSuffix_numeric_ne p d _ _ hd hdig (by decide) (by decide) (by decide)
  have h4 : matchesSuffix (p ++ ('_' :: "stato_di_stampa".toList) ++ ['_'] ++ d)
      "estado_de_la_impresion".toList = false :=
    matchesSuffix_numeric_ne p d _ _ hd hdig (by decide) (by decide) (by decide)
  have h5 := matchesSuffix_numeric_self p d "stato_di_stampa".toList hd hdig
  unfold detectLanguageFromEntity PRINT_STATUS_TO_LANGUAGE
  rw [List.find?_cons_of_neg _ (by intro hcon; simp only [h1] at hcon; exact Bool.false_ne_true hcon), List.find?_cons_of_neg _ (by intro hcon; simp only [h2] at hcon; exact Bool.false_ne_true hcon),
    List.find?_cons_of_neg _ (by intro hcon; simp only [h3] at hcon; exact Bool.false_ne_true hcon), List.find?_cons_of_neg _ (by intro hcon; simp only [h4] at hcon; exact Bool.false_ne_true hcon),
    List.find?_cons_of_pos _ (by simpa using h5)]

lemma detect_default (s : List Char)
    (hs : ∀ pr ∈ PRINT_STATUS_TO_LANGUAGE, matchesSuffix s pr.1 = false) :
    detectLanguageFromEntity s = .en := by
  unfold detectLanguageFromEntity
  rw [List.find?_eq_none.mpr (fun pr hpr => by simp [hs pr hpr])]

/-- C5: for every supported locale (en, de, nl, es, it),
`detectLanguageFromEntity` maps any entity identifier ending in `_` plus that
locale's print-status suffix — optionally followed by a numeric disambiguator
`_2`, `_3`, … (here: `_` plus any nonempty digit string `d`) — to that locale;
and any identifier matching no supported locale's print-status fragment maps
to the base locale `en`. -/
theorem C5_detectLanguage (p d s : List Char) (hd : d ≠ [])
    (hdig : ∀ c ∈ d, c.isDigit = true)
    (hs : ∀ pr ∈ PRINT_STATUS_TO_LANGUAGE, matchesSuffix s pr.1 = false) :
    (detectLanguageFromEntity (p ++ '_' :: "print_status".toList) = .en ∧
      detectLanguageFromEntity (p ++ ('_' :: "print_status".toList) ++ ['_'] ++ d) = .en) ∧
    (detectLanguageFromEntity (p ++ '_' :: "druckstatus".toList) = .de ∧
      detectLanguageFromEntity (p ++ ('_' :: "druckstatus".toList) ++ ['_'] ++ d) = .de) ∧
    (detectLanguageFromEntity (p ++ '_' :: "printstatus".toList) = .nl ∧
      detectLanguageFromEntity (p ++ ('_' :: "printstatus".toList) ++ ['_'] ++ d) = .nl) ∧
    (detectLanguageFromEntity (p ++ '_' :: "estado_de_la_impresion".toList) = .es ∧
      detectLanguageFromEntity (p ++ ('_' :: "estado_de_la_impresion".toList) ++ ['_'] ++ d) = .es) ∧
    (detectLanguageFromEntity (p ++ '_' :: "stato_di_stampa".toList) = .it ∧
      detectLanguageFromEntity (p ++ ('_' :: "stato_di_stampa".toList) ++ ['_'] ++ d) = .it) ∧
    detectLanguageFromEntity s = .en :=
  ⟨⟨detect_plain_en p, detect_num_en p d hd hdig⟩,
   ⟨detect_plain_de p, detect_num_de p d hd hdig⟩,
   ⟨detect_plain_nl p, detect_num_nl p d hd hdig⟩,
   ⟨detect_plain_es p, detect_num_es p d hd hdig⟩,
   ⟨detect_plain_it p, detect_num_it p d hd hdig⟩,
   detect_default s hs⟩

/-- Witness for C5 at a concrete printer prefix, disambiguator `2`, and the
non-print-status identifier `sensor.x1c_humidity`. -/
theorem C5_detectLanguage_witness :
    (detectLanguageFromEntity ("sensor.x1c".toList ++ '_' :: "print_status".toList) = .en ∧
      detectLanguageFromEntity ("sensor.x1c".toList ++ ('_' :: "print_status".toList) ++ ['_'] ++ ['2']) = .en) ∧
    (detectLanguageFromEntity ("sensor.x1c".toList ++ '_' :: "druckstatus".toList) = .de ∧
      detectLanguageFromEntity ("sensor.x1c".toList ++ ('_' :: "druckstatus".toList) ++ ['_'] ++ ['2']) = .de) ∧
    (detectLanguageFromEntity ("sensor.x1c".toList ++ '_' :: "printstatus".toList) = .nl ∧
      detectLanguageFromEntity ("sensor.x1c".toList ++ ('_' :: "printstatus".toList) ++ ['_'] ++ ['2']) = .nl) ∧
    (detectLanguageFromEntity ("sensor.x1c".toList ++ '_' :: "estado_de_la_impresion".toList) = .es ∧
      detectLanguageFromEntity ("sensor.x1c".toList ++ ('_' :: "estado_de_la_impresion".toList) ++ ['_'] ++ ['2']) = .es) ∧
    (detectLanguageFromEntity ("sensor.x1c".toList ++ '_' :: "stato_di_stampa".toList) = .it ∧
      detectLanguageFromEntity ("sensor.x1c".toList ++ ('_' :: "stato_di_stampa".toList) ++ ['_'] ++ ['2']) = .it) ∧
    detectLanguageFromEntity "sensor.x1c_humidity".toList = .en :=
  C5_detectLanguage "sensor.x1c".toList ['2'] "sensor.x1c_humidity".toList
    (by decide) (by decide) (by decide)

/-! ## Printer-prefix extraction under a numeric disambiguator -/

/-- On a tail ending in a non-digit, the digit branch of `tailCheck` never
fires, so `tailCheck` reduces to the exact-equality branch. -/
lemma tailCheck_eq_beq (suf w : List Char) (c₀ : Char) (h : c₀.isDigit = false) :
    tailCheck (w ++ [c₀]) suf = ((w ++ [c₀]) == '_' :: suf) := by
  unfold tailCheck
  cases hp : (('_' :: suf) ++ ['_']).isPrefixOf (w ++ [c₀]) with
  | false => simp [hp]
  | true =>
    obtain ⟨m, hm⟩ := isPrefixOf_iff.mp hp
    have hlen : (('_' :: suf) ++ ['_']).length = suf.length + 2 := by simp
    have hdropm : (w ++ [c₀]).drop (suf.length + 2) = m := by
      rw [← hm, List.drop_left' hlen]
    rcases List.eq_nil_or_concat m with hm0 | ⟨L, b, hLb⟩
    · rw [hdropm, hm0]; simp
    · rw [List.concat_eq_append] at hLb
      have hb : b = c₀ := by
        have h1 : ((('_' :: suf) ++ ['_']) ++ m).getLast? = some c₀ := by
          rw [hm]; exact List.getLast?_concat _
        rw [hLb, show (('_' :: suf) ++ ['_']) ++ (L ++ [b])
            = ((('_' :: suf) ++ ['_']) ++ L) ++ [b] by simp,
          List.getLast?_concat] at h1
        exact Option.some.inj h1
      have hall : m.all Char.isDigit = false := by
        rw [hLb, hb]
        simp [List.all_append, h]
      rw [hdropm, hall]
      simp

/-- Appending the disambiguator `_2` to a tail ending in a non-digit leaves
`tailCheck` unchanged: the extended tail matches iff the original tail is
exactly `_suffix`. -/
lemma tailCheck_concat (suf w : List Char) (c₀ : Char) (h : c₀.isDigit = false)
    (hlast : ('_' :: suf).getLast? ≠ some '2') :
    tailCheck ((w ++ [c₀]) ++ ['_', '2']) suf = tailCheck (w ++ [c₀]) suf := by
  rw [tailCheck_eq_beq suf w c₀ h]
  have hlen : (('_' :: suf) ++ ['_']).length = suf.length + 2 := by simp
  rw [Bool.eq_iff_iff]
  constructor
  · intro htc
    unfold tailCheck at htc
    rw [Bool.or_eq_true] at htc
    rcases htc with hplain | hdig
    · exfalso
      have heq : (w ++ [c₀]) ++ ['_', '2'] = '_' :: suf := by
        exact_mod_cast beq_iff_eq.mp hplain
      have h2 : ((w ++ [c₀]) ++ ['_', '2']).getLast? = some '2' := by
        rw [show (w ++ [c₀]) ++ ['_', '2'] = ((w ++ [c₀]) ++ ['_']) ++ ['2'] by simp]
        exact List.getLast?_concat _
      rw [heq] at h2
      exact hlast h2
    · rw [Bool.and_eq_true, Bool.and_eq_true] at hdig
      obtain ⟨hp, hne, hall⟩ := hdig
      obtain ⟨m, hm⟩ := isPrefixOf_iff.mp hp
      have hdropm : (((w ++ [c₀]) ++ ['_', '2']).drop (suf.length + 2)) = m := by
        rw [← hm, List.drop_left' hlen]
      rw [hdropm] at hne hall
      rcases List.eq_nil_or_concat m with hm0 | ⟨L, a, hLa⟩
      · rw [hm0] at hne; simp at hne
      · rw [List.concat_eq_append] at hLa
        have ha : a = '2' := by
          have h1 : ((('_' :: suf) ++ ['_']) ++ m).getLast? = some '2' := by
            rw [hm, show (w ++ [c₀]) ++ ['_', '2'] = ((w ++ [c₀]) ++ ['_']) ++ ['2'] by simp]
            exact List.getLast?_concat _
          rw [hLa, show (('_' :: suf) ++ ['_']) ++ (L ++ [a])
              = ((('_' :: suf) ++ ['_']) ++ L) ++ [a] by simp,
            List.getLast?_concat] at h1
          exact Option.some.inj h1
        rw [hLa, ha] at hm
        have hm2 : ((('_' :: suf) ++ ['_']) ++ L) ++ ['2']
            = ((w ++ [c₀]) ++ ['_']) ++ ['2'] := by
          rw [show ((('_' :: suf) ++ ['_']) ++ L) ++ ['2']
              = (('_' :: suf) ++ ['_']) ++ (L ++ ['2']) by simp,
            show ((w ++ [c₀]) ++ ['_']) ++ ['2'] = (w ++ [c₀]) ++ ['_', '2'] by simp]
          exact hm
        have hcore : (('_' :: suf) ++ ['_']) ++ L = (w ++ [c₀]) ++ ['_'] :=
          List.append_cancel_right hm2
        rcases List.eq_nil_or_concat L with hL0 | ⟨L', b, hLb⟩
        · rw [hL0, List.append_nil] at hcore
          have := List.append_cancel_right hcore
          rw [beq_iff_eq]
          exact this.symm
        · exfalso
          rw [List.concat_eq_append] at hLb
          have hb : b = '_' := by
            have h1 : ((('_' :: suf) ++ ['_']) ++ L).getLast? = some '_' := by
              rw [hcore]; exact List.getLast?_concat _
            rw [hLb, show (('_' :: suf) ++ ['_']) ++ (L' ++ [b])
                = ((('_' :: suf) ++ ['_']) ++ L') ++ [b] by simp,
              List.getLast?_concat] at h1
            exact Option.some.inj h1
          rw [hLa, hLb, hb] at hall
          simp [List.all_append] at hall
  · intro hbeq
    have heq : w ++ [c₀] = '_' :: suf := by exact_mod_cast beq_iff_eq.mp hbeq
    unfold tailCheck
    rw [Bool.or_eq_true]
    right
    have hx : (w ++ [c₀]) ++ ['_', '2'] = ((('_' :: suf) ++ ['_'])) ++ ['2'] := by
      rw [heq]; simp
    rw [Bool.and_eq_true, Bool.and_eq_true]
    refine ⟨isPrefixOf_iff.mpr ⟨['2'], hx.symm⟩, ?_, ?_⟩ <;>
      rw [hx, List.drop_left' hlen]
    · simp
    · decide

/-- Appending `_2` to a tail ending in a non-digit leaves `tailMatches`
unchanged. -/
lemma tailMatches_concat (w : List Char) (c₀ : Char) (h : c₀.isDigit = false) :
    tailMatches ((w ++ [c₀]) ++ ['_', '2']) = tailMatches (w ++ [c₀]) := by
  unfold tailMatches PRINT_STATUS_SUFFIXES
  simp only [List.any_cons, List.any_nil]
  rw [tailCheck_concat "print_status".toList w c₀ h (by decide),
    tailCheck_concat "druckstatus".toList w c₀ h (by decide),
    tailCheck_concat "printstatus".toList w c₀ h (by decide),
    tailCheck_concat "estado_de_la_impresion".toList w c₀ h (by decide),
    tailCheck_concat "stato_di_stampa".toList w c₀ h (by decide)]

/-- Appending `_2` to a scan target ending in a non-digit does not change the
lazy capture. -/
lemma lazySplit_concat (c₀ : Char) (h : c₀.isDigit = false) :
    ∀ (w acc : List Char),
      lazySplit acc ((w ++ [c₀]) ++ ['_', '2']) = lazySplit acc (w ++ [c₀]) := by
  intro w
  induction w with
  | nil =>
    intro acc
    show lazySplit acc [c₀, '_', '2'] = lazySplit acc [c₀]
    have h1 : tailMatches ['_', '2'] = false := by decide
    have h2 : tailMatches ['2'] = false := by decide
    have h3 : tailMatches ([] : List Char) = false := by decide
    simp [lazySplit, h1, h2, h3]
  | cons c w' ih =>
    intro acc
    show lazySplit acc (c :: ((w' ++ [c₀]) ++ ['_', '2']))
      = lazySplit acc (c :: (w' ++ [c₀]))
    simp only [lazySplit]
    rw [tailMatches_concat w' c₀ h]
    cases htm : tailMatches (w' ++ [c₀]) with
    | true => simp
    | false =>
      rw [if_neg Bool.false_ne_true, if_neg Bool.false_ne_true]
      exact ih (acc ++ [c])

/-- If some position of the scan target accepts, the lazy capture succeeds. -/
lemma lazySplit_isSome_of_accept :
    ∀ (u : List Char) (c : Char) (v acc : List Char), tailMatches v = true →
      ∃ r, lazySplit acc (u ++ c :: v) = some r := by
  intro u
  induction u with
  | nil =>
    intro c v acc hv
    exact ⟨acc ++ [c], by simp [lazySplit, hv]⟩
  | cons cu u' ih =>
    intro c v acc hv
    show ∃ r, lazySplit acc (cu :: (u' ++ c :: v)) = some r
    cases htm : tailMatches (u' ++ c :: v) with
    | true => exact ⟨acc ++ [cu], by simp [lazySplit, htm]⟩
    | false =>
      obtain ⟨r, hr⟩ := ih c v (acc ++ [cu]) hv
      exact ⟨r, by simp [lazySplit, htm, hr]⟩

/-- For an identifier `sensor.<base>_<suffix>` with nonempty base, appending
the disambiguator `_2` does not change the extracted printer prefix. -/
lemma extract_concat_core (b pre : List Char) (c₀ : Char) (hc₀ : c₀.isDigit = false)
    (suf : List Char) (hsufeq : '_' :: suf = pre ++ [c₀]) (hb : b ≠ [])
    (hsuftail : tailMatches ('_' :: suf) = true) :
    extractPrinterPrefix ((sensorDot ++ b ++ '_' :: suf) ++ ['_', '2'])
      = extractPrinterPrefix (sensorDot ++ b ++ '_' :: suf) := by
  have hlen7 : sensorDot.length = 7 := by decide
  have hv : b ++ '_' :: suf = (b ++ pre) ++ [c₀] := by
    rw [hsufeq, List.append_assoc]
  have hm1 : printStatusMatch (sensorDot ++ b ++ '_' :: suf)
      = lazySplit [] (b ++ '_' :: suf) := by
    unfold printStatusMatch
    have hp : sensorDot.isPrefixOf ((sensorDot ++ b) ++ '_' :: suf) = true :=
      isPrefixOf_iff.mpr ⟨b ++ '_' :: suf, (List.append_assoc _ _ _).symm⟩
    rw [if_pos hp, List.append_assoc, List.drop_left' hlen7]
  have hm2 : printStatusMatch ((sensorDot ++ b ++ '_' :: suf) ++ ['_', '2'])
      = lazySplit [] ((b ++ '_' :: suf) ++ ['_', '2']) := by
    unfold printStatusMatch
    have heq : ((sensorDot ++ b) ++ '_' :: suf) ++ ['_', '2']
        = sensorDot ++ ((b ++ '_' :: suf) ++ ['_', '2']) := by
      simp [List.append_assoc]
    have hp : sensorDot.isPrefixOf (((sensorDot ++ b) ++ '_' :: suf) ++ ['_', '2']) = true :=
      isPrefixOf_iff.mpr ⟨(b ++ '_' :: suf) ++ ['_', '2'], heq.symm⟩
    rw [if_pos hp, heq, List.drop_left' hlen7]
  have hsplit : lazySplit [] ((b ++ '_' :: suf) ++ ['_', '2'])
      = lazySplit [] (b ++ '_' :: suf) := by
    rw [hv]
    exact lazySplit_concat c₀ hc₀ (b ++ pre) []
  obtain ⟨L, cb, hbL⟩ : ∃ L cb, b = L ++ [cb] := by
    rcases List.eq_nil_or_concat b with h0 | ⟨L, cb, hL⟩
    · exact absurd h0 hb
    · exact ⟨L, cb, by rw [hL, List.concat_eq_append]⟩
  have hvv : b ++ '_' :: suf = L ++ cb :: ('_' :: suf) := by
    rw [hbL]; simp
  obtain ⟨r, hr⟩ := lazySplit_isSome_of_accept L cb ('_' :: suf) [] hsuftail
  rw [← hvv] at hr
  unfold extractPrinterPrefix
  rw [hm1, hm2, hsplit, hr]

/-- C6 corrected: for every identifier `x = sensor.<base>_<suffix>` with
nonempty base and a print-status suffix, `extractPrinterPrefix x` EQUALS
`extractPrinterPrefix (x ++ "_2")` — the numeric disambiguator is stripped, so
the disambiguated identifier resolves to the same printer prefix rather than a
distinct one — and both identifiers classify as print-status entities. -/
theorem C6_extract_disambiguator (b suf : List Char) (hb : b ≠ [])
    (hsuf : suf ∈ PRINT_STATUS_SUFFIXES) :
    extractPrinterPrefix ((sensorDot ++ b ++ '_' :: suf) ++ ['_', '2'])
        = extractPrinterPrefix (sensorDot ++ b ++ '_' :: suf) ∧
    isPrintStatusEntity (sensorDot ++ b ++ '_' :: suf) = true ∧
    isPrintStatusEntity ((sensorDot ++ b ++ '_' :: suf) ++ ['_', '2']) = true := by
  refine ⟨?_, ?_, ?_⟩
  · have hsuf' := hsuf
    simp only [PRINT_STATUS_SUFFIXES, List.mem_cons, List.not_mem_nil, or_false] at hsuf'
    rcases hsuf' with h | h | h | h | h <;> subst h
    · exact extract_concat_core b "_print_statu".toList 's' (by decide) _ (by decide) hb (by decide)
    · exact extract_concat_core b "_druckstatu".toList 's' (by decide) _ (by decide) hb (by decide)
    · exact extract_concat_core b "_printstatu".toList 's' (by decide) _ (by decide) hb (by decide)
    · exact extract_concat_core b "_estado_de_la_impresio".toList 'n' (by decide) _ (by decide) hb (by decide)
    · exact extract_concat_core b "_stato_di_stamp".toList 'a' (by decide) _ (by decide) hb (by decide)
  · unfold isPrintStatusEntity
    rw [Bool.and_eq_true]
    refine ⟨isPrefixOf_iff.mpr ⟨b ++ '_' :: suf, (List.append_assoc _ _ _).symm⟩, ?_⟩
    exact List.any_eq_true.mpr ⟨suf, hsuf, matchesSuffix_self (sensorDot ++ b) suf⟩
  · unfold isPrintStatusEntity
    rw [Bool.and_eq_true]
    have heq : ((sensorDot ++ b) ++ '_' :: suf) ++ ['_', '2']
        = sensorDot ++ ((b ++ '_' :: suf) ++ ['_', '2']) := by
      simp [List.append_assoc]
    refine ⟨isPrefixOf_iff.mpr ⟨(b ++ '_' :: suf) ++ ['_', '2'], heq.symm⟩, ?_⟩
    have heq2 : ((sensorDot ++ b) ++ '_' :: suf) ++ ['_', '2']
        = ((sensorDot ++ b) ++ ('_' :: suf)) ++ ['_'] ++ ['2'] := by
      simp [List.append_assoc]
    have hms := matchesSuffix_numeric_self (sensorDot ++ b) ['2'] suf
      (by decide) (by decide)
    rw [heq2]
    exact List.any_eq_true.mpr ⟨suf, hsuf, hms⟩

/-- Witness for C6 corrected at base `abc` and the English suffix. -/
theorem C6_extract_disambiguator_witness :
    extractPrinterPrefix ((sensorDot ++ "abc".toList ++ '_' :: "print_status".toList) ++ ['_', '2'])
        = extractPrinterPrefix (sensorDot ++ "abc".toList ++ '_' :: "print_status".toList) ∧
    isPrintStatusEntity (sensorDot ++ "abc".toList ++ '_' :: "print_status".toList) = true ∧
    isPrintStatusEntity ((sensorDot ++ "abc".toList ++ '_' :: "print_status".toList) ++ ['_', '2']) = true :=
  C6_extract_disambiguator "abc".toList "print_status".toList (by decide) (by decide)

/-- C6 counterexample: `sensor.abc_print_status` is a print-status entity
identifier, yet its extracted prefix EQUALS the extracted prefix of the same
identifier with `_2` appended (both are `abc`), contradicting the claim that
the two prefixes are distinct. -/
theorem C6_counterexample :
    isPrintStatusEntity "sensor.abc_print_status".toList = true ∧
    isPrintStatusEntity ("sensor.abc_print_status".toList ++ ['_', '2']) = true ∧
    extractPrinterPrefix ("sensor.abc_print_status".toList ++ ['_', '2'])
      = extractPrinterPrefix "sensor.abc_print_status".toList := by
  decide

/-! ## Webhook handler claims -/

/-- A one-element filter result pins down `find?`. -/
lemma find?_eq_some_of_filter_single {α} (p : α → Bool) (l : List α) (a : α)
    (h : l.filter p = [a]) : l.find? p = some a := by
  rw [find?_eq_head_filter, h]
  rfl

/-- An empty filter result means `find?` fails. -/
lemma find?_eq_none_of_filter_nil {α} (p : α → Bool) (l : List α)
    (h : l.filter p = []) : l.find? p = none := by
  rw [find?_eq_head_filter, h]
  rfl

/-- C2: a `spool_usage` event with positive weight whose tray id is claimed by
exactly one spool `S` performs exactly one inventory mutation — `useWeight`
with `S.id` and the used weight — responds `success` with
`newRemainingWeight = S.remaining_weight - w` computed from the snapshot, and
broadcasts exactly one `usage` event carrying `deducted = w` and
`newWeight = S.remaining_weight - w`. -/
theorem C2_spool_usage_success (env : Env) (body : WebhookBody) (w : Rat)
    (tray : String) (S : Spool)
    (hparse : env.parsedBody = some body)
    (hev : body.event = some "spool_usage")
    (hw : body.used_weight = some w) (hw0 : 0 < w)
    (htray : body.active_tray_id = some tray) (htray' : tray ≠ "")
    (hurl : ∃ u, env.spoolmanUrl = some u)
    (hgs : env.getSpoolsOk = true) (huw : env.useWeightOk = true)
    (hmatch : env.spools.filter (usageMatch tray) = [S]) :
    mutationCalls (POST env).1 = [Call.useWeight S.id w] ∧
    (POST env).2.status = some "success" ∧
    (POST env).2.newRemainingWeight = some (S.remaining_weight - w) ∧
    emittedEvents (POST env).1 =
      [{ type := "usage", spoolId := S.id, spoolName := S.filamentName,
         deducted := w, newWeight := S.remaining_weight - w,
         trayId := tray, timestamp := env.now }] := by
  obtain ⟨u, hu⟩ := hurl
  have hfind : env.spools.find? (usageMatch tray) = some S :=
    find?_eq_some_of_filter_single _ _ _ hmatch
  have hpost : POST env =
      ([Call.logActivity "webhook", Call.findSpoolmanConnection, Call.getSpools,
        Call.useWeight S.id w,
        Call.emitSpoolUpdated
          { type := "usage", spoolId := S.id, spoolName := S.filamentName,
            deducted := w, newWeight := S.remaining_weight - w,
            trayId := tray, timestamp := env.now },
        Call.logActivity "spool_usage"],
       { status := some "success", spoolId := some S.id, deducted := some w,
         newRemainingWeight := some (S.remaining_weight - w) }) := by
    unfold POST handleSpoolUsage
    simp [hparse, hu, hev, hw, htray, hgs, huw, hfind, not_le.mpr hw0, htray']
  rw [hpost]
  refine ⟨?_, rfl, rfl, ?_⟩ <;> simp [mutationCalls, isMutationCall, emittedEvents]

/-- Witness for C2: the spec's example — remaining 800 g, 50 g used — reports
750 g and broadcasts `deducted = 50`. -/
theorem C2_spool_usage_success_witness :
    mutationCalls (POST envUsage).1 = [Call.useWeight 1 50] ∧
    (POST envUsage).2.status = some "success" ∧
    (POST envUsage).2.newRemainingWeight = some (800 - 50) ∧
    emittedEvents (POST envUsage).1 =
      [{ type := "usage", spoolId := 1, spoolName := "PLA Black", deducted := 50,
         newWeight := 800 - 50, trayId := "tray1", timestamp := 7 }] :=
  C2_spool_usage_success envUsage bodyUsage 50 "tray1" spoolA
    rfl rfl rfl (by norm_num) rfl (by decide) ⟨_, rfl⟩ rfl rfl (by decide)

/-- C3: a `spool_usage` event whose `used_weight` is absent or `≤ 0`, or whose
`active_tray_id` is absent, is answered `ignored` with no inventory mutation
and no inventory read at all. -/
theorem C3_spool_usage_invalid (env : Env) (body : WebhookBody)
    (hparse : env.parsedBody = some body)
    (hev : body.event = some "spool_usage")
    (hbad : body.used_weight = none ∨ (∃ w, body.used_weight = some w ∧ w ≤ 0) ∨
      body.active_tray_id = none) :
    (POST env).2.status = some "ignored" ∧
    mutationCalls (POST env).1 = [] ∧
    Call.getSpools ∉ (POST env).1 := by
  have done : ∀ r : String,
      POST env = ([Call.logActivity "webhook", Call.findSpoolmanConnection],
        ignoredResponse r) →
      (POST env).2.status = some "ignored" ∧
      mutationCalls (POST env).1 = [] ∧
      Call.getSpools ∉ (POST env).1 := by
    intro r h
    rw [h]
    exact ⟨rfl, by simp [mutationCalls, isMutationCall], by simp⟩
  cases hu : env.spoolmanUrl with
  | none =>
    exact done "spoolman not configured" (by unfold POST; simp [hparse, hu])
  | some u =>
    rcases hbad with hwn | ⟨w, hw, hw0⟩ | htr
    · exact done "no weight to deduct"
        (by unfold POST handleSpoolUsage; simp [hparse, hu, hev, hwn])
    · exact done "no weight to deduct"
        (by unfold POST handleSpoolUsage; simp [hparse, hu, hev, hw, hw0])
    · cases hwv : body.used_weight with
      | none =>
        exact done "no weight to deduct"
          (by unfold POST handleSpoolUsage; simp [hparse, hu, hev, hwv])
      | some w =>
        by_cases hw0 : w ≤ 0
        · exact done "no weight to deduct"
            (by unfold POST handleSpoolUsage; simp [hparse, hu, hev, hwv, hw0])
        · exact done "no active_tray_id provided"
            (by unfold POST handleSpoolUsage; simp [hparse, hu, hev, hwv, hw0, htr])

/-- Witness for C3 at a zero-weight usage event. -/
theorem C3_spool_usage_invalid_witness :
    (POST envZero).2.status = some "ignored" ∧
    mutationCalls (POST envZero).1 = [] ∧
    Call.getSpools ∉ (POST envZero).1 :=
  C3_spool_usage_invalid envZero bodyZero rfl rfl
    (Or.inr (Or.inl ⟨0, rfl, le_refl 0⟩))

/-- C4: a `spool_usage` event with positive weight and a tray id that no spool
claims is answered `no_match` with a message naming the tray, and performs no
inventory mutation. -/
theorem C4_spool_usage_no_match (env : Env) (body : WebhookBody) (w : Rat)
    (tray : String)
    (hparse : env.parsedBody = some body)
    (hev : body.event = some "spool_usage")
    (hw : body.used_weight = some w) (hw0 : 0 < w)
    (htray : body.active_tray_id = some tray) (htray' : tray ≠ "")
    (hurl : ∃ u, env.spoolmanUrl = some u)
    (hgs : env.getSpoolsOk = true)
    (hnone : ∀ s ∈ env.spools, usageMatch tray s = false) :
    (POST env).2.status = some "no_match" ∧
    (POST env).2.message = some ("No spool assigned to tray " ++ tray ++
      ". Assign a spool in SpoolmanSync first.") ∧
    mutationCalls (POST env).1 = [] := by
  obtain ⟨u, hu⟩ := hurl
  have hfind : env.spools.find? (usageMatch tray) = none :=
    List.find?_eq_none.mpr (fun s hs => by simp [hnone s hs])
  have hpost : POST env =
      ([Call.logActivity "webhook", Call.findSpoolmanConnection, Call.getSpools],
       { status := some "no_match",
         message := some ("No spool assigned to tray " ++ tray ++
           ". Assign a spool in SpoolmanSync first.") }) := by
    unfold POST handleSpoolUsage
    simp [hparse, hu, hev, hw, htray, hgs, hfind, not_le.mpr hw0, htray']
  rw [hpost]
  exact ⟨rfl, rfl, by simp [mutationCalls, isMutationCall]⟩

/-- Witness for C4: tray `tray1` is claimed by no spool in the snapshot. -/
theorem C4_spool_usage_no_match_witness :
    (POST envUsageNoMatch).2.status = some "no_match" ∧
    (POST envUsageNoMatch).2.message = some ("No spool assigned to tray " ++
      "tray1" ++ ". Assign a spool in SpoolmanSync first.") ∧
    mutationCalls (POST envUsageNoMatch).1 = [] :=
  C4_spool_usage_no_match envUsageNoMatch bodyUsage 50 "tray1" rfl rfl rfl
    (by norm_num) rfl (by decide) ⟨_, rfl⟩ rfl (by decide)

/-- C1 corrected: on a `tray_change` event, if at least one spool's
`extra.tag_uid` equals the JSON-encoded tag, exactly one `assignSpoolToTray`
call is made — for the first matching spool in snapshot order and the event's
`tray_entity_id` — and the response is `success`; if no spool matches, or the
tag is absent, empty, or `'unknown'`, no inventory mutation occurs and the
response is `no_match`. -/
theorem C1_tray_change (env : Env) (body : WebhookBody)
    (hparse : env.parsedBody = some body)
    (hev : body.event = some "tray_change")
    (hurl : ∃ u, env.spoolmanUrl = some u)
    (hgs : env.getSpoolsOk = true) (has : env.assignOk = true) :
    (∀ tag sp, body.tag_uid = some tag → tag ≠ "" → tag ≠ "unknown" →
      env.spools.find? (tagMatch tag) = some sp →
      mutationCalls (POST env).1 = [Call.assignSpoolToTray sp.id body.tray_entity_id] ∧
      (POST env).2.status = some "success" ∧
      (POST env).2.matchedBy = some "tag_uid") ∧
    ((body.tag_uid = none ∨ body.tag_uid = some "" ∨ body.tag_uid = some "unknown" ∨
        (∃ tag, body.tag_uid = some tag ∧ env.spools.find? (tagMatch tag) = none)) →
      mutationCalls (POST env).1 = [] ∧
      (POST env).2.status = some "no_match") := by
  obtain ⟨u, hu⟩ := hurl
  have hevne : body.event ≠ some "spool_usage" := by rw [hev]; simp
  have done : ∀ tr : List Call, POST env = (tr,
      { status := some "no_match",
        message := some ("No spool assigned to this tray. " ++
          "Please assign a spool manually in SpoolmanSync.") }) →
      mutationCalls tr = [] →
      mutationCalls (POST env).1 = [] ∧ (POST env).2.status = some "no_match" := by
    intro tr h hm
    rw [h]
    exact ⟨hm, rfl⟩
  constructor
  · intro tag sp htag hne hnu hfind
    have hpost : POST env =
        ([Call.logActivity "webhook", Call.findSpoolmanConnection, Call.getSpools,
          Call.assignSpoolToTray sp.id body.tray_entity_id,
          Call.logActivity "spool_change"],
         { status := some "success", spool := some sp, matchedBy := some "tag_uid" }) := by
      unfold POST handleTrayChange
      simp [hparse, hu, hev, hevne, hgs, has, htag, hne, hnu, hfind]
    rw [hpost]
    exact ⟨by simp [mutationCalls, isMutationCall], rfl, rfl⟩
  · intro hbad
    have hmut : mutationCalls [Call.logActivity "webhook", Call.findSpoolmanConnection,
        Call.getSpools] = [] := by simp [mutationCalls, isMutationCall]
    rcases hbad with h | h | h | ⟨tag, htag, hfind⟩
    · refine done _ ?_ hmut
      unfold POST handleTrayChange
      simp [hparse, hu, hev, hevne, hgs, h]
    · refine done _ ?_ hmut
      unfold POST handleTrayChange
      simp [hparse, hu, hev, hevne, hgs, h]
    · refine done _ ?_ hmut
      unfold POST handleTrayChange
      simp [hparse, hu, hev, hevne, hgs, h]
    · by_cases hne : tag = ""
      · refine done _ ?_ hmut
        unfold POST handleTrayChange
        simp [hparse, hu, hev, hevne, hgs, htag, hne]
      · by_cases hnu : tag = "unknown"
        · refine done _ ?_ hmut
          unfold POST handleTrayChange
          simp [hparse, hu, hev, hevne, hgs, htag, hnu]
        · refine done _ ?_ hmut
          unfold POST handleTrayChange
          simp [hparse, hu, hev, hevne, hgs, htag, hne, hnu, hfind]

/-- Witness for C1 corrected: tag `AB` matches exactly `spoolA`, which is
assigned to the event's tray with a `success` response. -/
theorem C1_tray_change_witness :
    mutationCalls (POST envTrayOne).1
      = [Call.assignSpoolToTray 1 (some "sensor.t1")] ∧
    (POST envTrayOne).2.status = some "success" ∧
    (POST envTrayOne).2.matchedBy = some "tag_uid" :=
  (C1_tray_change envTrayOne bodyTray rfl rfl ⟨_, rfl⟩ rfl rfl).1
    "AB" spoolA rfl (by decide) (by decide) (by decide)

/-- C1 counterexample: with two spools both carrying tag `AB`, the handler
still mutates the inventory — it assigns the first matching spool — and
responds `success`, not `no_match` as the claim requires for a multi-match. -/
theorem C1_counterexample :
    (envTrayTwo.spools.filter (tagMatch "AB")).length = 2 ∧
    mutationCalls (POST envTrayTwo).1
      = [Call.assignSpoolToTray 1 (some "sensor.t1")] ∧
    (POST envTrayTwo).2.status = some "success" := by
  decide

/-- C9: when no Spoolman connection is configured, every parsed delivery —
whatever its event kind — is answered `ignored` with reason
`spoolman not configured`, with no inventory read and no mutation. -/
theorem C9_not_configured (env : Env) (body : WebhookBody)
    (hparse : env.parsedBody = some body) (hurl : env.spoolmanUrl = none) :
    (POST env).2.status = some "ignored" ∧
    (POST env).2.reason = some "spoolman not configured" ∧
    Call.getSpools ∉ (POST env).1 ∧
    mutationCalls (POST env).1 = [] := by
  have hpost : POST env =
      ([Call.logActivity "webhook", Call.findSpoolmanConnection],
       ignoredResponse "spoolman not configured") := by
    unfold POST
    simp [hparse, hurl]
  rw [hpost]
  exact ⟨rfl, rfl, by decide, by decide⟩

/-- Witness for C9 at a `tray_change` delivery with no connection row. -/
theorem C9_not_configured_witness :
    (POST envNoConn).2.status = some "ignored" ∧
    (POST envNoConn).2.reason = some "spoolman not configured" ∧
    Call.getSpools ∉ (POST envNoConn).1 ∧
    mutationCalls (POST envNoConn).1 = [] :=
  C9_not_configured envNoConn bodyTray rfl rfl

/-- C10 counterexample: a delivery with an unrecognized event name but no
configured Spoolman connection is answered with reason
`spoolman not configured`, not `unknown event type` as the claim requires of
every such delivery. -/
theorem C10_counterexample :
    envNoConnOther.parsedBody = some bodyOther ∧
    bodyOther.event = some "print_started" ∧
    (POST envNoConnOther).2.reason = some "spoolman not configured" ∧
    (POST envNoConnOther).2.reason ≠ some "unknown event type" := by
  decide

/-- C10 corrected: when a Spoolman connection is configured, a parsed delivery
whose event is neither `spool_usage` nor `tray_change` (including an absent
event field) is answered `ignored` with reason `unknown event type`, with no
inventory mutation and no broadcast. -/
theorem C10_unknown_event (env : Env) (body : WebhookBody)
    (hparse : env.parsedBody = some body)
    (hurl : ∃ u, env.spoolmanUrl = some u)
    (hev1 : body.event ≠ some "spool_usage")
    (hev2 : body.event ≠ some "tray_change") :
    (POST env).2.status = some "ignored" ∧
    (POST env).2.reason = some "unknown event type" ∧
    mutationCalls (POST env).1 = [] ∧
    emittedEvents (POST env).1 = [] := by
  obtain ⟨u, hu⟩ := hurl
  have hpost : POST env =
      ([Call.logActivity "webhook", Call.findSpoolmanConnection],
       ignoredResponse "unknown event type") := by
    unfold POST
    simp [hparse, hu, hev1, hev2]
  rw [hpost]
  exact ⟨rfl, rfl, by decide, by decide⟩

/-- Witness for C10 corrected at event `print_started` with a configured
connection. -/
theorem C10_unknown_event_witness :
    (POST envOther).2.status = some "ignored" ∧
    (POST envOther).2.reason = some "unknown event type" ∧
    mutationCalls (POST envOther).1 = [] ∧
    emittedEvents (POST envOther).1 = [] :=
  C10_unknown_event envOther bodyOther rfl ⟨_, rfl⟩ (by decide) (by decide)

/-- C7 corrected: every delivery whose body parses appends at least one
ActivityRecord; `ignored` and `no_match` outcomes append exactly one (the
initial webhook log), while `success` outcomes and caught failures append
exactly two (the initial log plus the outcome/error log). -/
theorem C7_activity_append (env : Env) (body : WebhookBody)
    (hparse : env.parsedBody = some body) :
    1 ≤ activityCount (POST env).1 ∧
    (((POST env).2.status = some "ignored" ∨ (POST env).2.status = some "no_match") →
      activityCount (POST env).1 = 1) ∧
    (((POST env).2.status = some "success" ∨ (POST env).2.httpStatus = 500) →
      activityCount (POST env).1 = 2) := by
  simp only [POST, handleSpoolUsage, handleTrayChange, hparse]
  repeat' split
  all_goals
    refine ⟨by simp [activityCount, isLogCall], fun hst => ?_, fun hst => ?_⟩
  all_goals
    first
      | (simp [activityCount, isLogCall]; done)
      | (rcases hst with h | h <;>
          simp [ignoredResponse, errorResponse, activityCount, isLogCall] at h ⊢)

/-- Witness for C7 corrected at a successful usage deduction. -/
theorem C7_activity_append_witness :
    1 ≤ activityCount (POST envUsage).1 ∧
    (((POST envUsage).2.status = some "ignored" ∨
        (POST envUsage).2.status = some "no_match") →
      activityCount (POST envUsage).1 = 1) ∧
    (((POST envUsage).2.status = some "success" ∨
        (POST envUsage).2.httpStatus = 500) →
      activityCount (POST envUsage).1 = 2) :=
  C7_activity_append envUsage bodyUsage rfl

/-- C7 counterexample: a successful `spool_usage` delivery appends two
ActivityRecords (the webhook log and the deduction log), not exactly one. -/
theorem C7_counterexample :
    (POST envUsage).2.status = some "success" ∧
    activityCount (POST envUsage).1 = 2 := by
  decide

/-- Shape lemma: a trace ending in one appended call decomposes at the end. -/
lemma tail_shape_err {l : List Call} :
    ∃ t, l ++ [Call.logActivity "error"] = t ++ [Call.logActivity "error"] :=
  ⟨l, rfl⟩

/-- Shape lemma: a failed call followed by the error log ends the trace. -/
lemma tail_shape_pair {l : List Call} {c : Call} :
    ∃ t, (l ++ [c]) ++ [Call.logActivity "error"] = t ++ [c, Call.logActivity "error"] :=
  ⟨l, by simp⟩

/-- Shape lemma: a failed `useWeight` followed by the error log ends the trace. -/
lemma tail_shape_use {l : List Call} {i : Nat} {g : Rat} :
    ∃ t i' g', (l ++ [Call.useWeight i g]) ++ [Call.logActivity "error"]
      = t ++ [Call.useWeight i' g', Call.logActivity "error"] :=
  ⟨l, i, g, by simp⟩

/-- Shape lemma: a failed `assignSpoolToTray` followed by the error log ends
the trace. -/
lemma tail_shape_assign {l : List Call} {i : Nat} {tr : Option String} :
    ∃ t i' tr', (l ++ [Call.assignSpoolToTray i tr]) ++ [Call.logActivity "error"]
      = t ++ [Call.assignSpoolToTray i' tr', Call.logActivity "error"] :=
  ⟨l, i, tr, by simp⟩

/-- A failed body parse goes straight to the catch block. -/
lemma post_parse_fail (env : Env) :
    env.parsedBody = none → POST env = ([Call.logActivity "error"], errorResponse) := by
  intro h
  unfold POST
  rw [h]

/-- When the inventory read throws, either the delivery never reads the
inventory, or it ends with the failed read followed only by the error log,
answers the generic 500 failure, and performs no mutation at all. -/
lemma post_read_fail (env : Env) :
    env.getSpoolsOk = false →
      Call.getSpools ∉ (POST env).1 ∨
      ((POST env).2 = errorResponse ∧ mutationCalls (POST env).1 = [] ∧
        ∃ t, (POST env).1 = t ++ [Call.getSpools, Call.logActivity "error"]) := by
  simp only [POST, handleSpoolUsage, handleTrayChange]
  repeat' split
  all_goals intro h
  all_goals first
    | (exact absurd h (by assumption))
    | (left; simp; done)
    | (right; exact ⟨rfl, by simp [mutationCalls, isMutationCall], tail_shape_pair⟩)

/-- When the weight-deduction mutation throws, either it is never attempted,
or it is the last call before the error log, with the generic 500 failure. -/
lemma post_useWeight_fail (env : Env) :
    env.useWeightOk = false →
      (∀ i g, Call.useWeight i g ∉ (POST env).1) ∨
      ((POST env).2 = errorResponse ∧
        ∃ t i g, (POST env).1 = t ++ [Call.useWeight i g, Call.logActivity "error"]) := by
  simp only [POST, handleSpoolUsage, handleTrayChange]
  repeat' split
  all_goals intro h
  all_goals first
    | (exact absurd h (by assumption))
    | (left; intro i g; simp; done)
    | (right; exact ⟨rfl, tail_shape_use⟩)

/-- When the tray-assignment mutation throws, either it is never attempted,
or it is the last call before the error log, with the generic 500 failure. -/
lemma post_assign_fail (env : Env) :
    env.assignOk = false →
      (∀ i tr, Call.assignSpoolToTray i tr ∉ (POST env).1) ∨
      ((POST env).2 = errorResponse ∧
        ∃ t i tr, (POST env).1
          = t ++ [Call.assignSpoolToTray i tr, Call.logActivity "error"]) := by
  simp only [POST, handleSpoolUsage, handleTrayChange]
  repeat' split
  all_goals intro h
  all_goals first
    | (exact absurd h (by assumption))
    | (left; intro i tr; simp; done)
    | (right; exact ⟨rfl, tail_shape_assign⟩)

/-- Every 500 response is the generic failure and its trace ends with the
error ActivityRecord — nothing, in particular no mutation, follows it. -/
lemma post_500 (env : Env) :
    (POST env).2.httpStatus = 500 →
      (POST env).2 = errorResponse ∧
      ∃ t, (POST env).1 = t ++ [Call.logActivity "error"] := by
  simp only [POST, handleSpoolUsage, handleTrayChange]
  repeat' split
  all_goals intro h500
  all_goals first
    | (exact ⟨rfl, tail_shape_err⟩)
    | (exact ⟨rfl, [], rfl⟩)
    | (simp [ignoredResponse] at h500)

/-- C8: exceptions from body parsing, the inventory read, or an inventory
mutation are caught at the top level: the handler appends an `error`
ActivityRecord as its final action, answers the generic HTTP 500 failure, and
attempts no further call — in particular no mutation — after the throwing
step. -/
theorem C8_exception_semantics (env : Env) :
    (env.parsedBody = none →
      POST env = ([Call.logActivity "error"], errorResponse)) ∧
    (env.getSpoolsOk = false →
      Call.getSpools ∉ (POST env).1 ∨
      ((POST env).2 = errorResponse ∧ mutationCalls (POST env).1 = [] ∧
        ∃ t, (POST env).1 = t ++ [Call.getSpools, Call.logActivity "error"])) ∧
    (env.useWeightOk = false →
      (∀ i g, Call.useWeight i g ∉ (POST env).1) ∨
      ((POST env).2 = errorResponse ∧
        ∃ t i g, (POST env).1
          = t ++ [Call.useWeight i g, Call.logActivity "error"])) ∧
    (env.assignOk = false →
      (∀ i tr, Call.assignSpoolToTray i tr ∉ (POST env).1) ∨
      ((POST env).2 = errorResponse ∧
        ∃ t i tr, (POST env).1
          = t ++ [Call.assignSpoolToTray i tr, Call.logActivity "error"])) ∧
    ((POST env).2.httpStatus = 500 →
      (POST env).2 = errorResponse ∧
      ∃ t, (POST env).1 = t ++ [Call.logActivity "error"]) :=
  ⟨post_parse_fail env, post_read_fail env, post_useWeight_fail env,
   post_assign_fail env, post_500 env⟩

/-- Witness for C8 at a delivery whose body fails to parse. -/
theorem C8_exception_semantics_witness :
    POST envParseFail = ([Call.logActivity "error"], errorResponse) :=
  (C8_exception_semantics envParseFail).1 rfl

end SpoolmanSync
